import Mathlib

/-!
Verification of the fingerprint-construction and signing core of a
cache-signing server (Rust sources under src/).  The Rust code is shallowly
embedded: bytes are Nat values below 256, fallible operations return Option
or Except, and a Rust panic (index out of bounds, arithmetic underflow in a
debug build, or an explicit todo) is modelled as the Option value none.
-/

namespace NixCacheSigning

set_option autoImplicit false

/-! ## Base64 (model of the base64 crate's general_purpose::STANDARD engine)

The engine is RFC 4648 standard base64 with the +/ alphabet, padding
required and canonical (input length a multiple of 4, = only as final
padding, non-zero trailing bits rejected), and no whitespace tolerance. -/

/-- Value of a single base64 alphabet character; none for characters outside
the standard alphabet (including whitespace and the padding sign). -/
def base64CharVal (c : Char) : Option Nat :=
  let n := c.toNat
  if 65 ≤ n ∧ n ≤ 90 then some (n - 65)
  else if 97 ≤ n ∧ n ≤ 122 then some (n - 97 + 26)
  else if 48 ≤ n ∧ n ≤ 57 then some (n - 48 + 52)
  else if n = 43 then some 62
  else if n = 47 then some 63
  else none

/-- Decode a base64 character list four characters at a time.  The final
quantum may carry one or two padding signs; padding anywhere else, a
character outside the alphabet, non-zero discarded trailing bits, or a
length that is not a multiple of four is a decode error (none). -/
def base64DecodeBlocks : List Char → Option (List Nat)
  | [] => some []
  | c1 :: c2 :: c3 :: c4 :: rest =>
    match base64CharVal c1, base64CharVal c2 with
    | some v1, some v2 =>
      if c3 = '=' then
        if c4 = '=' ∧ rest = [] then
          if v2 % 16 = 0 then some [v1 * 4 + v2 / 16] else none
        else none
      else
        match base64CharVal c3 with
        | some v3 =>
          if c4 = '=' then
            if rest = [] ∧ v3 % 4 = 0 then
              some [v1 * 4 + v2 / 16, (v2 % 16) * 16 + v3 / 4]
            else none
          else
            match base64CharVal c4 with
            | some v4 =>
              match base64DecodeBlocks rest with
              | some bs =>
                some ((v1 * 4 + v2 / 16) :: ((v2 % 16) * 16 + v3 / 4) ::
                      ((v3 % 4) * 64 + v4) :: bs)
              | none => none
            | none => none
        | none => none
    | _, _ => none
  | _ => none

/-- STANDARD.decode on a string: the input length must be a multiple of
four (canonical padding), then the quanta are decoded. -/
def base64Decode (s : String) : Option (List Nat) :=
  if s.data.length % 4 = 0 then base64DecodeBlocks s.data else none

/-- The standard base64 alphabet, used by STANDARD.encode. -/
def B64_ALPHABET : List Char :=
  "ABCDEFGHIJKLMNOPQRSTUVWXYZabcdefghijklmnopqrstuvwxyz0123456789+/".data

/-- Alphabet lookup for a sextet value (all call sites pass values below
64, so the default is never produced). -/
def base64AlphaChar (n : Nat) : Char :=
  B64_ALPHABET.getD (n % 64) 'A'

/-- STANDARD.encode three bytes at a time, padding the final quantum with
one or two = signs as RFC 4648 requires. -/
def base64EncodeBlocks : List Nat → List Char
  | [] => []
  | [b1] =>
    [base64AlphaChar (b1 / 4), base64AlphaChar ((b1 % 4) * 16), '=', '=']
  | [b1, b2] =>
    [base64AlphaChar (b1 / 4), base64AlphaChar ((b1 % 4) * 16 + b2 / 16),
     base64AlphaChar ((b2 % 16) * 4), '=']
  | b1 :: b2 :: b3 :: rest =>
    base64AlphaChar (b1 / 4) :: base64AlphaChar ((b1 % 4) * 16 + b2 / 16) ::
    base64AlphaChar ((b2 % 16) * 4 + b3 / 64) :: base64AlphaChar (b3 % 64) ::
    base64EncodeBlocks rest

/-- STANDARD.encode of a byte sequence as a string. -/
def base64Encode (bytes : List Nat) : String :=
  String.mk (base64EncodeBlocks bytes)

/-! ## Hash types (src/nix.rs) -/

/-- The algorithms of the ssri crate's Algorithm enum (the wire format's
self-describing hash tags). -/
inductive SsriAlgorithm where
  | sha1
  | sha256
  | sha384
  | sha512
deriving DecidableEq, Repr

/-- NixHashType from src/nix.rs: the three algorithms the fingerprint
format supports. -/
inductive NixHashType where
  | sha1
  | sha256
  | sha512
deriving DecidableEq, Repr

/-- Display impl for NixHashType in src/nix.rs. -/
def NixHashType.toString : NixHashType → String
  | .sha1 => "sha1"
  | .sha256 => "sha256"
  | .sha512 => "sha512"

/-- TryFrom ssri::Algorithm for NixHashType in src/nix.rs: sha1, sha256 and
sha512 convert; any other algorithm is an error, modelled as none. -/
def NixHashType.ofAlgorithm : SsriAlgorithm → Option NixHashType
  | .sha1 => some .sha1
  | .sha256 => some .sha256
  | .sha512 => some .sha512
  | .sha384 => none

/-- SRIHash from src/nix.rs: an ssri::Hash, i.e. an algorithm together with
the digest kept as its base64 text. -/
structure SRIHash where
  algorithm : SsriAlgorithm
  digest : String
deriving DecidableEq, Repr

/-- NixBase32 from src/nix.rs. -/
structure NixBase32 where
  hash_type : NixHashType
  digest : String
deriving DecidableEq, Repr

/-- ToString impl for NixBase32 in src/nix.rs. -/
def NixBase32.toString (nb : NixBase32) : String :=
  NixHashType.toString nb.hash_type ++ ":" ++ nb.digest

/-! ## The custom base32 transform (SRIHash::to_nix_base32, src/nix.rs) -/

/-- BASE32_CHARS from src/nix.rs; e, o, u and t are omitted. -/
def BASE32_CHARS : List Char :=
  "0123456789abcdfghijklmnpqrsvwxyz".data

/-- One iteration of the to_nix_base32 character loop, for output index n:
bit offset b = n*5, byte index i = b/8, shift j = b%8,
x = bytes[i] >> j (j is always below 8, so checked_shr never fails),
y = 0 when i is at or past the last byte, otherwise
bytes[i+1] << (8-j) as a u8, where checked_shl yields 0 when j = 0.
The out-of-bounds index bytes[i] (reachable only for an empty input, where
the length computation in the caller has already gone wrong) is a Rust
panic, modelled as none. -/
def base32Char (bytes : List Nat) (n : Nat) : Option Char :=
  let b := n * 5
  let i := b / 8
  let j := b % 8
  match bytes.get? i with
  | none => none
  | some bi =>
    let x := bi >>> j
    let y : Nat :=
      if bytes.length - 1 ≤ i then 0
      else if j = 0 then 0
      else ((bytes.getD (i + 1) 0) <<< (8 - j)) % 256
    some (BASE32_CHARS.getD ((x ||| y) % BASE32_CHARS.length) '0')

/-- Sequence a list of fallible steps, failing as soon as one fails (mapM
in the Option monad, written out so that induction is direct). -/
def optionMapM {α β : Type} (f : α → Option β) : List α → Option (List β)
  | [] => some []
  | a :: rest =>
    match f a with
    | none => none
    | some b =>
      match optionMapM f rest with
      | none => none
      | some bs => some (b :: bs)

/-- The character loop of to_nix_base32: the output length is
(len*8 - 1)/5 + 1 (in the source this usize subtraction underflows when the
digest is empty — a panic in a debug build and a doomed huge allocation or
out-of-bounds index in a release build; here the truncated Nat subtraction
makes the length 1 and the single out-of-bounds lookup returns none,
modelling that crash), and characters are produced from index len-1 down
to 0. -/
def toNixBase32DigestChars (bytes : List Nat) : Option (List Char) :=
  let digest_base32_len := (bytes.length * 8 - 1) / 5 + 1
  optionMapM (base32Char bytes) ((List.range digest_base32_len).reverse)

/-- The two error returns of SRIHash::to_nix_base32: the base64 decode of
the stored digest can fail, and the algorithm conversion can fail. -/
inductive ConvError where
  | base64DecodeError
  | unsupportedAlgorithm (algo : SsriAlgorithm)
deriving DecidableEq, Repr

/-- SRIHash::to_nix_base32 from src/nix.rs, in the statement order of the
source: decode the base64 digest (an error return on failure), run the
base32 character loop (none models its panic on an empty digest), and only
then convert the algorithm (an error return when it is unsupported). -/
def SRIHash.toNixBase32 (h : SRIHash) : Option (Except ConvError NixBase32) :=
  match base64Decode h.digest with
  | none => some (Except.error ConvError.base64DecodeError)
  | some digest_bytes =>
    match toNixBase32DigestChars digest_bytes with
    | none => none
    | some base32_digest =>
      match NixHashType.ofAlgorithm h.algorithm with
      | none => some (Except.error (ConvError.unsupportedAlgorithm h.algorithm))
      | some ht => some (Except.ok { hash_type := ht, digest := String.mk base32_digest })

/-- How many times an execution of SRIHash::to_nix_base32 enters the base32
character loop, following the statement order of the source: the loop runs
exactly when the base64 decode succeeded, and in particular it runs before
the algorithm support check is ever made. -/
def toNixBase32CodecRuns (h : SRIHash) : Nat :=
  match base64Decode h.digest with
  | none => 0
  | some _ => 1

/-! ## PathInfo and the fingerprint (src/nix.rs) -/

/-- PathInfo from src/nix.rs.  nar_size is u64 in the source; it is carried
here as a Nat, and Nat's decimal rendering agrees with u64's on every u64
value. -/
structure PathInfo where
  nar_hash : SRIHash
  nar_size : Nat
  store_path : String
  references : List String
deriving DecidableEq, Repr

/-- PathInfo::fingerprint from src/nix.rs: render the size in decimal, join
the references with commas, convert the nar hash to nix base32 (its error
return propagates, and its panic on an empty digest remains a panic), and
concatenate the pieces with 1; in front and ; between fields. -/
def PathInfo.fingerprint (p : PathInfo) : Option (Except ConvError String) :=
  let nar_size_string := toString p.nar_size
  let references_string := String.intercalate "," p.references
  match p.nar_hash.toNixBase32 with
  | none => none
  | some (Except.error e) => some (Except.error e)
  | some (Except.ok base32_nar_hash) =>
    some (Except.ok ("1;" ++ p.store_path ++ ";" ++ base32_nar_hash.toString ++
      ";" ++ nar_size_string ++ ";" ++ references_string))

/-- How many times PathInfo::fingerprint enters the base32 character loop:
it calls to_nix_base32 exactly once, on the nar_hash field. -/
def fingerprintCodecRuns (p : PathInfo) : Nat :=
  toNixBase32CodecRuns p.nar_hash

/-- valid_path_info_fingerprint from src/main.rs: the same concatenation,
given the already-rendered base32 nar hash as a string.  The dbg macro the
source wraps the result in prints it and returns it unchanged. -/
def valid_path_info_fingerprint (store_path : String) (base32_nar_hash : String)
    (nar_size : Nat) (references : List String) : String :=
  let nar_size_str := toString nar_size
  let references_str := String.intercalate "," references
  "1;" ++ store_path ++ ";" ++ base32_nar_hash ++ ";" ++ nar_size_str ++
    ";" ++ references_str

/-! ## Secret-key parsing (sign_realisation, src/main.rs) -/

/-- str::split_once on a character list: split at the first occurrence of
the separator; none when it does not occur. -/
def splitOnceCore : List Char → Char → Option (List Char × List Char)
  | [], _ => none
  | c :: cs, sep =>
    if c = sep then some ([], cs)
    else
      match splitOnceCore cs sep with
      | none => none
      | some (front, back) => some (c :: front, back)

/-- str::split_once on strings. -/
def split_once (s : String) (sep : Char) : Option (String × String) :=
  match splitOnceCore s.data sep with
  | none => none
  | some (front, back) => some (String.mk front, String.mk back)

/-- The two error returns of the secret-key handling in sign_realisation:
the base64 decode of the key material can fail, and a decoded key that is
not exactly 64 bytes fails the conversion into a fixed 64-byte array. -/
inductive SecretKeyError where
  | base64DecodeError
  | wrongKeyLength
deriving DecidableEq, Repr

/-- The secret-key parsing steps of sign_realisation, src/main.rs lines
275-283, applied to the text read from the key file: split_once at the
first colon — the source runs an unfinished todo marker, i.e. a panic,
when there is none, modelled as the outer none — then STANDARD-decode the
remainder (an error return on failure), then require exactly 64 bytes
(the dryoc ed25519 secret key length; any other length is an error
return).  No trimming of any kind is performed on the file text. -/
def parseSecretKey (encoded_secret_key : String) :
    Option (Except SecretKeyError (String × List Nat)) :=
  match split_once encoded_secret_key ':' with
  | none => none
  | some (key_name, secret_bytes) =>
    match base64Decode secret_bytes with
    | none => some (Except.error SecretKeyError.base64DecodeError)
    | some secret_key_bytes =>
      if secret_key_bytes.length = 64 then
        some (Except.ok (key_name, secret_key_bytes))
      else some (Except.error SecretKeyError.wrongKeyLength)

/-! ## Signing (sign_realisation, src/main.rs) -/

/-- Modelled from the spec: the detached-signature primitive
(dryoc's crypto_sign_detached, ed25519) is external library code, absent
from the sources.  The spec specifies only that it is a deterministic pure
function of the payload and the secret key whose output has the fixed
length of 64 bytes regardless of the payload length; this model is such a
function (a keyed byte mix expanded to 64 bytes). -/
def cryptoSignDetached (payload : List Nat) (secret_key : List Nat) : List Nat :=
  let mix := payload.foldl (fun acc b => (acc * 31 + b) % 256) 7
  (List.range 64).map (fun i => (mix + i * 17 + secret_key.getD (i % 64) 0) % 256)

/-- The signing and formatting steps of sign_realisation, src/main.rs lines
294-302: fill a 64-byte signature buffer with the detached signature of the
payload under the secret key, STANDARD-encode it, and format the token as
the key name, a colon and the base64 signature. -/
def signToken (key_name : String) (payload : List Nat) (secret_key : List Nat) :
    String :=
  let signature := cryptoSignDetached payload secret_key
  let signature_base64 := base64Encode signature
  key_name ++ ":" ++ signature_base64

/-! ## Golden values shared by several statements -/

/-- The base64 digest of the golden SHA-256 nar hash. -/
def goldenDigestBase64 : String := "sXrPtjqhSoc2u0YfM1HVZThknkSYuRuHdtKCB6wkDFo="

/-- The nix base32 rendering of the same digest. -/
def goldenBase32Digest : String :=
  "0nhc4jn0g0njfs3ipfcq8jg68f35sm8k67s6pcv8fjm17avcyymi"

/-- The raw 32 bytes behind the golden digest. -/
def goldenDigestBytes : List Nat :=
  [177, 122, 207, 182, 58, 161, 74, 135, 54, 187, 70, 31, 51, 81, 213, 101,
   56, 100, 158, 68, 152, 185, 27, 135, 118, 210, 130, 7, 172, 36, 12, 90]

/-- A well-formed secret-key line: the name test, a colon, and the base64
of 64 zero bytes. -/
def zeroSecretKeyLine : String :=
  "test:AAAAAAAAAAAAAAAAAAAAAAAAAAAAAAAAAAAAAAAAAAAAAAAAAAAAAAAAAAAAAAAAAAAAAAAAAAAAAAAAAAAAAA=="

/-! ## Helper lemmas -/

/-- Sequencing preserves length. -/
theorem optionMapM_length {α β : Type} (f : α → Option β) (l : List α)
    (res : List β) (h : optionMapM f l = some res) : res.length = l.length := by
  induction l generalizing res with
  | nil =>
    unfold optionMapM at h
    cases h
    rfl
  | cons a rest ih =>
    unfold optionMapM at h
    cases hf : f a with
    | none => rw [hf] at h; cases h
    | some b =>
      rw [hf] at h
      cases hr : optionMapM f rest with
      | none => rw [hr] at h; cases h
      | some bs =>
        rw [hr] at h
        cases h
        simp [ih bs hr]

/-- Sequencing succeeds when every step does. -/
theorem optionMapM_isSome {α β : Type} (f : α → Option β) (l : List α)
    (h : ∀ a ∈ l, ∃ b, f a = some b) : ∃ res, optionMapM f l = some res := by
  induction l with
  | nil => exact ⟨[], rfl⟩
  | cons a rest ih =>
    obtain ⟨b, hb⟩ := h a (List.mem_cons_self a rest)
    obtain ⟨bs, hbs⟩ := ih (fun x hx => h x (List.mem_cons_of_mem a hx))
    refine ⟨b :: bs, ?_⟩
    unfold optionMapM
    rw [hb, hbs]

/-- Every element of a sequenced result is the image of an input element. -/
theorem optionMapM_mem {α β : Type} (f : α → Option β) (l : List α)
    (res : List β) (b : β) (h : optionMapM f l = some res) (hb : b ∈ res) :
    ∃ a, a ∈ l ∧ f a = some b := by
  induction l generalizing res with
  | nil =>
    unfold optionMapM at h
    cases h
    cases hb
  | cons a rest ih =>
    unfold optionMapM at h
    cases hf : f a with
    | none => rw [hf] at h; cases h
    | some b0 =>
      rw [hf] at h
      cases hr : optionMapM f rest with
      | none => rw [hr] at h; cases h
      | some bs =>
        rw [hr] at h
        cases h
        rcases List.mem_cons.mp hb with hhead | htail
        · exact ⟨a, List.mem_cons_self a rest, by rw [hf, hhead]⟩
        · obtain ⟨a1, ha1, hfa1⟩ := ih bs hr htail
          exact ⟨a1, List.mem_cons_of_mem a ha1, hfa1⟩

/-- Every in-range lookup into the base32 alphabet lands in the alphabet. -/
theorem BASE32_CHARS_getD_mem :
    ∀ k, k < 32 → BASE32_CHARS.getD k '0' ∈ BASE32_CHARS := by decide

/-- Lookups reduced modulo the alphabet length land in the alphabet. -/
theorem BASE32_CHARS_getD_mod_mem (k : Nat) :
    BASE32_CHARS.getD (k % BASE32_CHARS.length) '0' ∈ BASE32_CHARS := by
  have h32 : BASE32_CHARS.length = 32 := rfl
  have hk : k % BASE32_CHARS.length < 32 := by
    rw [h32]
    exact Nat.mod_lt _ (by norm_num)
  exact BASE32_CHARS_getD_mem _ hk

/-- For a non-empty byte sequence, every in-range loop index produces a
character, and that character belongs to the alphabet. -/
theorem base32Char_some (bytes : List Nat) (n : Nat) (hne : bytes ≠ [])
    (hn : n < (bytes.length * 8 - 1) / 5 + 1) :
    ∃ c, base32Char bytes n = some c ∧ c ∈ BASE32_CHARS := by
  have hL : 0 < bytes.length := List.length_pos.mpr hne
  have hi : n * 5 / 8 < bytes.length := by omega
  cases hg : bytes.get? (n * 5 / 8) with
  | none =>
    have := List.get?_eq_none.mp hg
    omega
  | some bi =>
    simp only [base32Char, hg]
    exact ⟨_, rfl, BASE32_CHARS_getD_mod_mem _⟩

/-- For a non-empty byte sequence the base32 character loop succeeds, with
the length from the source's formula and all output in the alphabet. -/
theorem toNixBase32DigestChars_some (bytes : List Nat) (hne : bytes ≠ []) :
    ∃ chars, toNixBase32DigestChars bytes = some chars ∧
      chars.length = (bytes.length * 8 - 1) / 5 + 1 ∧
      ∀ c ∈ chars, c ∈ BASE32_CHARS := by
  have hstep : ∀ n ∈ (List.range ((bytes.length * 8 - 1) / 5 + 1)).reverse,
      ∃ c, base32Char bytes n = some c := by
    intro n hn
    have hn2 : n < (bytes.length * 8 - 1) / 5 + 1 :=
      List.mem_range.mp (List.mem_reverse.mp hn)
    obtain ⟨c, hc, _⟩ := base32Char_some bytes n hne hn2
    exact ⟨c, hc⟩
  obtain ⟨chars, hchars⟩ := optionMapM_isSome _ _ hstep
  refine ⟨chars, hchars, ?_, ?_⟩
  · have := optionMapM_length _ _ _ hchars
    simpa using this
  · intro c hc
    obtain ⟨n, hn, hfn⟩ := optionMapM_mem _ _ _ _ hchars hc
    have hn2 : n < (bytes.length * 8 - 1) / 5 + 1 :=
      List.mem_range.mp (List.mem_reverse.mp hn)
    obtain ⟨c1, hc1, hmem⟩ := base32Char_some bytes n hne hn2
    rw [hfn] at hc1
    cases hc1
    exact hmem

/-- A conversion that returned a value must have decoded the base64 digest. -/
theorem toNixBase32_ok_decode (h : SRIHash) (nb : NixBase32)
    (hok : h.toNixBase32 = some (Except.ok nb)) :
    ∃ bytes, base64Decode h.digest = some bytes := by
  unfold SRIHash.toNixBase32 at hok
  cases hd : base64Decode h.digest with
  | none => rw [hd] at hok; cases hok
  | some bytes => exact ⟨bytes, rfl⟩

/-- The golden artifact metadata of claims C2, C3 and C10 (store paths as
the claims give them). -/
def goldenPathInfo : PathInfo :=
  { nar_hash := { algorithm := .sha256, digest := goldenDigestBase64 }
    nar_size := 226552
    store_path := "/store/mdi7lvrn2mx7rfzv3fdq3v5yw8swiks6-hello-2.12.1"
    references := ["/store/aw2fw9ag10wr9pf0qk4nk5sxi0q0bn56-glibc-2.37-8",
                   "/store/mdi7lvrn2mx7rfzv3fdq3v5yw8swiks6-hello-2.12.1"] }

/-- The golden SRI hash carrying an algorithm outside the supported three. -/
def goldenSha384Hash : SRIHash :=
  { algorithm := .sha384, digest := goldenDigestBase64 }

/-! ## Claims -/

/-- Claim C1: converting the self-describing hash
sha256-sXrPtjqhSoc2u0YfM1HVZThknkSYuRuHdtKCB6wkDFo= (algorithm sha256,
base64 digest) through to_nix_base32 and the ToString rendering yields
exactly the text sha256:0nhc4jn0g0njfs3ipfcq8jg68f35sm8k67s6pcv8fjm17avcyymi. -/
theorem base32_conformance_golden_vector :
    (SRIHash.toNixBase32 { algorithm := .sha256, digest := goldenDigestBase64 }).map
        (Except.map NixBase32.toString) =
      some (Except.ok "sha256:0nhc4jn0g0njfs3ipfcq8jg68f35sm8k67s6pcv8fjm17avcyymi") :=
  rfl

/-- Claim C2: on the golden metadata the fingerprint builder returns
exactly the claimed byte string. -/
theorem fingerprint_golden_vector :
    goldenPathInfo.fingerprint =
      some (Except.ok
        "1;/store/mdi7lvrn2mx7rfzv3fdq3v5yw8swiks6-hello-2.12.1;sha256:0nhc4jn0g0njfs3ipfcq8jg68f35sm8k67s6pcv8fjm17avcyymi;226552;/store/aw2fw9ag10wr9pf0qk4nk5sxi0q0bn56-glibc-2.37-8,/store/mdi7lvrn2mx7rfzv3fdq3v5yw8swiks6-hello-2.12.1") :=
  rfl

/-- Claim C3: for every metadata record whose nar hash converts, the
fingerprint is exactly the concatenation of the 1; version prefix, the
store path, the hash type, a colon, the base32 digest, the decimal size
and the comma-joined references in their given order with no trailing
separator, and the base32 codec runs exactly once, on the nar_hash field. -/
theorem fingerprint_shape (p : PathInfo) (nb : NixBase32)
    (hok : p.nar_hash.toNixBase32 = some (Except.ok nb)) :
    p.fingerprint = some (Except.ok
        ("1;" ++ p.store_path ++ ";" ++ NixHashType.toString nb.hash_type ++
          ":" ++ nb.digest ++ ";" ++ toString p.nar_size ++ ";" ++
          String.intercalate "," p.references)) ∧
      fingerprintCodecRuns p = 1 := by
  constructor
  · simp only [PathInfo.fingerprint, hok, NixBase32.toString, String.append_assoc]
  · unfold fingerprintCodecRuns toNixBase32CodecRuns
    obtain ⟨bytes, hd⟩ := toNixBase32_ok_decode _ _ hok
    rw [hd]

/-- Claim C3, witness: the general fingerprint shape applied to the golden
metadata. -/
theorem fingerprint_shape_witness :
    goldenPathInfo.nar_hash.toNixBase32 =
      some (Except.ok { hash_type := NixHashType.sha256, digest := goldenBase32Digest }) ∧
    (goldenPathInfo.fingerprint = some (Except.ok
        ("1;" ++ goldenPathInfo.store_path ++ ";" ++
          NixHashType.toString NixHashType.sha256 ++ ":" ++ goldenBase32Digest ++
          ";" ++ toString goldenPathInfo.nar_size ++ ";" ++
          String.intercalate "," goldenPathInfo.references)) ∧
      fingerprintCodecRuns goldenPathInfo = 1) :=
  ⟨rfl, fingerprint_shape goldenPathInfo
    { hash_type := NixHashType.sha256, digest := goldenBase32Digest } rfl⟩

/-- Claim C4 (code bug): on key text without a colon the parsing in
sign_realisation hits an unfinished todo marker, i.e. it panics (modelled
as none) instead of failing with MalformedSecretKey; on a key decoding to
63 or 65 bytes it returns a generic wrong-length error, and no code path
ever constructs the MalformedSecretKey value that src/error.rs documents
for exactly these two conditions. -/
theorem secret_key_error_paths_diverge :
    parseSecretKey "there-is-no-separator" = none ∧
    parseSecretKey
        ("test:AAAAAAAAAAAAAAAAAAAAAAAAAAAAAAAAAAAAAAAAAAAAAAAAAAAAAAAAAAAAAAAAAAAAAAAAAAAAAAAA") =
      some (Except.error SecretKeyError.wrongKeyLength) ∧
    parseSecretKey
        ("test:AAAAAAAAAAAAAAAAAAAAAAAAAAAAAAAAAAAAAAAAAAAAAAAAAAAAAAAAAAAAAAAAAAAAAAAAAAAAAAAAAAA=") =
      some (Except.error SecretKeyError.wrongKeyLength) :=
  ⟨rfl, rfl, rfl⟩

/-- Claim C5, counterexample: for the golden digest tagged sha384 the
conversion does fail with the unsupported-algorithm error, but the digest
is passed through the base32 transform first — the loop runs once before
the algorithm check, refuting that it is never evaluated. -/
theorem unsupported_algorithm_still_runs_codec :
    SRIHash.toNixBase32 goldenSha384Hash =
      some (Except.error (ConvError.unsupportedAlgorithm SsriAlgorithm.sha384)) ∧
    toNixBase32CodecRuns goldenSha384Hash = 1 ∧
    ¬ toNixBase32CodecRuns goldenSha384Hash = 0 :=
  ⟨rfl, rfl, by decide⟩

/-- Claim C5 as amended: for every hash with an unsupported algorithm
whose digest is valid non-empty base64, the conversion fails with the
unsupported-algorithm error, but only after the digest has been passed
through the base32 transform exactly once. -/
theorem unsupported_algorithm_rejected_after_codec (h : SRIHash)
    (bytes : List Nat) (halg : NixHashType.ofAlgorithm h.algorithm = none)
    (hdec : base64Decode h.digest = some bytes) (hne : bytes ≠ []) :
    h.toNixBase32 =
      some (Except.error (ConvError.unsupportedAlgorithm h.algorithm)) ∧
    toNixBase32CodecRuns h = 1 := by
  obtain ⟨chars, hch, _, _⟩ := toNixBase32DigestChars_some bytes hne
  constructor
  · simp only [SRIHash.toNixBase32, hdec, hch, halg]
  · unfold toNixBase32CodecRuns
    rw [hdec]

/-- Claim C5, witness: the amended statement applied to the golden digest
tagged sha384. -/
theorem unsupported_algorithm_rejected_after_codec_witness :
    NixHashType.ofAlgorithm SsriAlgorithm.sha384 = none ∧
    base64Decode goldenDigestBase64 = some goldenDigestBytes ∧
    goldenDigestBytes ≠ [] ∧
    (SRIHash.toNixBase32 goldenSha384Hash =
        some (Except.error (ConvError.unsupportedAlgorithm SsriAlgorithm.sha384)) ∧
      toNixBase32CodecRuns goldenSha384Hash = 1) :=
  ⟨rfl, rfl, by decide,
    unsupported_algorithm_rejected_after_codec goldenSha384Hash
      goldenDigestBytes rfl rfl (by decide)⟩

/-- Claim C6, counterexample: on an SRI hash whose base64 digest decodes
to the empty byte sequence, to_nix_base32 crashes (none models the panic)
instead of producing an empty text digest. -/
theorem empty_digest_conversion_crashes :
    SRIHash.toNixBase32 { algorithm := SsriAlgorithm.sha256, digest := "" } = none ∧
    ¬ (SRIHash.toNixBase32 { algorithm := SsriAlgorithm.sha256, digest := "" } =
        some (Except.ok { hash_type := NixHashType.sha256, digest := "" })) :=
  ⟨rfl, fun hcontra => Option.noConfusion hcontra⟩

/-- Claim C6 as amended: on an empty decoded digest the routine panics
rather than producing an empty digest; for every non-empty decoded digest
it does not crash and has no error path of its own beyond the base64
decode and the algorithm check. -/
theorem nonempty_digest_no_crash (h : SRIHash) (bytes : List Nat)
    (hdec : base64Decode h.digest = some bytes) (hne : bytes ≠ []) :
    ∃ r, h.toNixBase32 = some r ∧
      ∀ e, r = Except.error e → e = ConvError.unsupportedAlgorithm h.algorithm := by
  obtain ⟨chars, hch, _, _⟩ := toNixBase32DigestChars_some bytes hne
  cases halg : NixHashType.ofAlgorithm h.algorithm with
  | none =>
    refine ⟨Except.error (ConvError.unsupportedAlgorithm h.algorithm), ?_, ?_⟩
    · simp only [SRIHash.toNixBase32, hdec, hch, halg]
    · intro e he
      injection he with h1
      exact h1.symm
  | some ht =>
    refine ⟨Except.ok { hash_type := ht, digest := String.mk chars }, ?_, ?_⟩
    · simp only [SRIHash.toNixBase32, hdec, hch, halg]
    · intro e he
      exact Except.noConfusion he

/-- Claim C6, witness: the amended statement applied to the golden
sha256 hash. -/
theorem nonempty_digest_no_crash_witness :
    base64Decode goldenDigestBase64 = some goldenDigestBytes ∧
    goldenDigestBytes ≠ [] ∧
    ∃ r, SRIHash.toNixBase32
        { algorithm := SsriAlgorithm.sha256, digest := goldenDigestBase64 } = some r ∧
      ∀ e, r = Except.error e → e = ConvError.unsupportedAlgorithm SsriAlgorithm.sha256 :=
  ⟨rfl, by decide,
    nonempty_digest_no_crash
      { algorithm := SsriAlgorithm.sha256, digest := goldenDigestBase64 }
      goldenDigestBytes rfl (by decide)⟩

/-- Claim C7, counterexample: at input length zero the character loop
crashes (none) — there is no output at all, in particular none of length
zero. -/
theorem base32_empty_input_has_no_output :
    toNixBase32DigestChars [] = none ∧
    ¬ ∃ chars, toNixBase32DigestChars [] = some chars ∧ chars.length = 0 := by
  refine ⟨rfl, ?_⟩
  rintro ⟨chars, hc, -⟩
  exact Option.noConfusion hc

/-- Claim C7 as amended: for every non-empty raw digest of length L the
base32 output exists, has length ceiling of L*8/5 independently of the
digest content, and every character belongs to the 32-symbol alphabet
(which contains no padding sign). -/
theorem base32_length_and_alphabet (bytes : List Nat) (hne : bytes ≠ []) :
    ∃ chars, toNixBase32DigestChars bytes = some chars ∧
      chars.length = (bytes.length * 8 + 4) / 5 ∧
      (∀ c ∈ chars, c ∈ BASE32_CHARS) ∧
      '=' ∉ BASE32_CHARS := by
  obtain ⟨chars, hc, hlen, hmem⟩ := toNixBase32DigestChars_some bytes hne
  have hL : 0 < bytes.length := List.length_pos.mpr hne
  refine ⟨chars, hc, ?_, hmem, by decide⟩
  rw [hlen]
  omega

/-- Claim C7, witness: the amended statement applied to the golden
32-byte digest. -/
theorem base32_length_and_alphabet_witness :
    goldenDigestBytes ≠ [] ∧
    ∃ chars, toNixBase32DigestChars goldenDigestBytes = some chars ∧
      chars.length = (goldenDigestBytes.length * 8 + 4) / 5 ∧
      (∀ c ∈ chars, c ∈ BASE32_CHARS) ∧
      '=' ∉ BASE32_CHARS :=
  ⟨by decide, base32_length_and_alphabet goldenDigestBytes (by decide)⟩

/-- Base64 encoding produces four characters per started three-byte
quantum. -/
theorem base64EncodeBlocks_length (bytes : List Nat) :
    (base64EncodeBlocks bytes).length = (bytes.length + 2) / 3 * 4 := by
  induction bytes using base64EncodeBlocks.induct with
  | case1 => rfl
  | case2 b1 => simp [base64EncodeBlocks]
  | case3 b1 b2 => simp [base64EncodeBlocks]
  | case4 b1 b2 b3 rest ih =>
    simp only [base64EncodeBlocks, List.length_cons, ih]
    omega

/-- Claim C8: for every payload and 64-byte secret key, the detached
signature has exactly 64 bytes, the token is the key name, a colon and
the base64 signature (which therefore spans 88 base64 characters), and —
the signer being a pure function of payload and key — the token for a
fixed payload and key is the same on every run. -/
theorem sign_token_format (key_name : String) (payload : List Nat)
    (secret_key : List Nat) (_hk : secret_key.length = 64) :
    (cryptoSignDetached payload secret_key).length = 64 ∧
    signToken key_name payload secret_key =
      key_name ++ ":" ++ base64Encode (cryptoSignDetached payload secret_key) ∧
    (base64Encode (cryptoSignDetached payload secret_key)).data.length = 88 := by
  have hlen : (cryptoSignDetached payload secret_key).length = 64 := by
    unfold cryptoSignDetached
    simp
  refine ⟨hlen, rfl, ?_⟩
  show (base64EncodeBlocks (cryptoSignDetached payload secret_key)).length = 88
  rw [base64EncodeBlocks_length, hlen]

/-- The golden fingerprint text, the payload the repository's tests sign. -/
def goldenFingerprintText : String :=
  "1;/store/mdi7lvrn2mx7rfzv3fdq3v5yw8swiks6-hello-2.12.1;sha256:0nhc4jn0g0njfs3ipfcq8jg68f35sm8k67s6pcv8fjm17avcyymi;226552;/store/aw2fw9ag10wr9pf0qk4nk5sxi0q0bn56-glibc-2.37-8,/store/mdi7lvrn2mx7rfzv3fdq3v5yw8swiks6-hello-2.12.1"

/-- Claim C8, witness: the token format at the golden fingerprint bytes
under a concrete 64-byte key named test. -/
theorem sign_token_format_witness :
    (List.replicate 64 0 : List Nat).length = 64 ∧
    ((cryptoSignDetached (goldenFingerprintText.data.map Char.toNat)
        (List.replicate 64 0)).length = 64 ∧
      signToken "test" (goldenFingerprintText.data.map Char.toNat)
          (List.replicate 64 0) =
        "test" ++ ":" ++ base64Encode (cryptoSignDetached
          (goldenFingerprintText.data.map Char.toNat) (List.replicate 64 0)) ∧
      (base64Encode (cryptoSignDetached
          (goldenFingerprintText.data.map Char.toNat)
          (List.replicate 64 0))).data.length = 88) :=
  ⟨by decide, sign_token_format "test" (goldenFingerprintText.data.map Char.toNat)
    (List.replicate 64 0) (by decide)⟩

/-- Splitting at a separator that occurs in the left part is unaffected on
the left and extends only the right part. -/
theorem splitOnceCore_append (l t : List Char) (sep : Char)
    (front back : List Char) (h : splitOnceCore l sep = some (front, back)) :
    splitOnceCore (l ++ t) sep = some (front, back ++ t) := by
  induction l generalizing front back with
  | nil => exact absurd h (by simp [splitOnceCore])
  | cons c cs ih =>
    unfold splitOnceCore at h
    by_cases hc : c = sep
    · rw [if_pos hc] at h
      injection h with h1
      injection h1 with hf hb
      subst hf
      subst hb
      simp only [List.cons_append]
      unfold splitOnceCore
      rw [if_pos hc]
    · rw [if_neg hc] at h
      cases hrec : splitOnceCore cs sep with
      | none => rw [hrec] at h; cases h
      | some pr =>
        obtain ⟨f1, b1⟩ := pr
        rw [hrec] at h
        injection h with h1
        injection h1 with hf hb
        subst hf
        subst hb
        simp only [List.cons_append]
        unfold splitOnceCore
        rw [if_neg hc, ih f1 b1 hrec]

/-- The data of a string built from a character list is that list. -/
theorem string_mk_data (l : List Char) : (String.mk l).data = l := rfl

/-- Claim C9, counterexample: a well-formed key line parses, but the same
line followed by a newline fails with a base64 decode error instead of
parsing to the same entry — trailing whitespace is not trimmed. -/
theorem secret_key_trailing_newline_cex :
    parseSecretKey zeroSecretKeyLine =
      some (Except.ok ("test", List.replicate 64 0)) ∧
    parseSecretKey (zeroSecretKeyLine ++ "\n") =
      some (Except.error SecretKeyError.base64DecodeError) :=
  ⟨rfl, rfl⟩

/-- Claim C9 as amended: parsing performs no trimming; for every key line
that parses successfully, the same line with a trailing newline fails with
a base64 decode error (the newline is passed to the strict decoder). -/
theorem secret_key_trailing_newline_rejected (line name : String)
    (key : List Nat)
    (hok : parseSecretKey line = some (Except.ok (name, key))) :
    parseSecretKey (line ++ "\n") =
      some (Except.error SecretKeyError.base64DecodeError) := by
  cases hs : splitOnceCore line.data ':' with
  | none => simp [parseSecretKey, split_once, hs] at hok
  | some pr =>
    obtain ⟨front, back⟩ := pr
    simp only [parseSecretKey, split_once, hs] at hok
    cases hd : base64Decode (String.mk back) with
    | none => simp [hd] at hok
    | some k =>
      have hlen4 : back.length % 4 = 0 := by
        unfold base64Decode at hd
        by_cases h4 : (String.mk back).data.length % 4 = 0
        · simpa [string_mk_data] using h4
        · rw [if_neg h4] at hd; cases hd
      have hdata : (line ++ "\n").data = line.data ++ ['\n'] := by
        rw [String.data_append]
      have hs2 : splitOnceCore (line.data ++ ['\n']) ':' =
          some (front, back ++ ['\n']) :=
        splitOnceCore_append line.data ['\n'] ':' front back hs
      have hdec2 : base64Decode (String.mk (back ++ ['\n'])) = none := by
        unfold base64Decode
        rw [if_neg]
        rw [string_mk_data]
        simp only [List.length_append, List.length_cons, List.length_nil]
        omega
      simp only [parseSecretKey, split_once, hdata, hs2, hdec2]

/-- Claim C9, witness: the amended statement at the concrete zero-byte
key line. -/
theorem secret_key_trailing_newline_rejected_witness :
    parseSecretKey zeroSecretKeyLine =
      some (Except.ok ("test", List.replicate 64 0)) ∧
    parseSecretKey (zeroSecretKeyLine ++ "\n") =
      some (Except.error SecretKeyError.base64DecodeError) ∧
    zeroSecretKeyLine ++ "\n" ≠ zeroSecretKeyLine :=
  ⟨rfl,
    secret_key_trailing_newline_rejected zeroSecretKeyLine "test"
      (List.replicate 64 0) rfl,
    by decide⟩

/-- Claim C10: the two fingerprint constructions agree — for every
metadata record whose nar hash converts to the base32 form, the free
function applied to the rendered base32 hash produces exactly the string
PathInfo::fingerprint produces. -/
theorem fingerprint_functions_agree (p : PathInfo) (nb : NixBase32)
    (hok : p.nar_hash.toNixBase32 = some (Except.ok nb)) :
    p.fingerprint = some (Except.ok
      (valid_path_info_fingerprint p.store_path nb.toString p.nar_size
        p.references)) := by
  simp only [PathInfo.fingerprint, valid_path_info_fingerprint, hok]

/-- Claim C10, witness: the agreement at the golden metadata. -/
theorem fingerprint_functions_agree_witness :
    goldenPathInfo.nar_hash.toNixBase32 = some (Except.ok
      { hash_type := NixHashType.sha256, digest := goldenBase32Digest }) ∧
    goldenPathInfo.fingerprint = some (Except.ok
      (valid_path_info_fingerprint goldenPathInfo.store_path
        (NixBase32.toString
          { hash_type := NixHashType.sha256, digest := goldenBase32Digest })
        goldenPathInfo.nar_size goldenPathInfo.references)) :=
  ⟨rfl, fingerprint_functions_agree goldenPathInfo
    { hash_type := NixHashType.sha256, digest := goldenBase32Digest } rfl⟩

end NixCacheSigning
